import Mathlib

/-!
Verification of the chat application's message, profile and contact
operations against their specification.

The repository is a Firebase-backed chat client.  The embedding below
translates the data model and the operations that the specification's
claims are about:

* `sendMessage`, `getMessagesRealtime`, `deleteMessage`
  (src/src/services/firebase.js — the chatService section);
* `updateUserProfile`, `fetchUserProfile` (src/unnamed/part_005 —
  userService.js);
* the ProfileScreen profile fetch and the ContactsScreen users listener
  (src/src/screens/ProfileScreen.js, src/src/screens/ContactsScreen.js);
* `handleSendMessage` of the useMessages hook
  (src/src/hooks/useMessages.js).

Firestore itself is external to the repository.  Where a claim is decided
by behaviour that lives in Firestore or in Firebase security rules rather
than in the repository (query ordering, per-document authorization,
anonymous uid generation), the corresponding definition is modelled from
the specification and marked `Modelled from the spec:` in its doc comment.

Server timestamps are embedded as natural numbers (milliseconds);
Firestore document ids are strings, unique within a collection.
-/

namespace ChatApp

/-- Embedding of JavaScript `String.prototype.trim`: removes leading and
trailing whitespace.  Defined over the character list so that it reduces
inside the kernel. -/
def jsTrim (s : String) : String :=
  String.mk
    (((s.data.dropWhile Char.isWhitespace).reverse.dropWhile
        Char.isWhitespace).reverse)

/-- Error taxonomy of the specification (section 7).  The source throws
JavaScript `Error` values at the corresponding sites; the constructors
name the conditions under which each site throws. -/
inductive ChatError where
  | EmptyMessage
  | NotAuthorized
  | NotFound
  | InvalidInput
deriving Repr, DecidableEq

/-- A chat message document as written by `sendMessage`
(src/src/services/firebase.js): fields `senderId`, `text`, `timestamp`,
plus the Firestore document id attached by the realtime listener. -/
structure Message where
  id : String
  senderId : String
  text : String
  timestamp : Nat
deriving Repr, DecidableEq

/-- The `messages` collection: the list of message documents, in
insertion order.  Firestore assigns each document a fresh id, so the ids
of a well-formed log are pairwise distinct. -/
abbrev MessageLog := List Message

/-- Embedding of `sendMessage(senderId, text)`
(src/src/services/firebase.js).  The source throws when `senderId` is
falsy or the trim of `text` is empty, before any write; otherwise it calls
`addDoc` with the sender id, the trimmed text and a server timestamp.
The document id and the server timestamp are assigned by the backend and
are inputs of the embedding. -/
def sendMessage (log : MessageLog) (newId : String) (now : Nat)
    (senderId text : String) : Except ChatError (MessageLog × Message) :=
  if senderId = "" ∨ jsTrim text = "" then
    Except.error ChatError.EmptyMessage
  else
    let m : Message :=
      { id := newId, senderId := senderId, text := jsTrim text, timestamp := now }
    Except.ok (log ++ [m], m)

/-- The message log that results from a `sendMessage` call: on success the
appended log, on a thrown error the unchanged log (the source performs no
write before the throw). -/
def logAfterSend (log : MessageLog) (newId : String) (now : Nat)
    (senderId text : String) : MessageLog :=
  match sendMessage log newId now senderId text with
  | Except.ok (log2, _) => log2
  | Except.error _ => log

/-- C2: a `sendMessage` call whose input text trims to the empty string
throws the empty-message error and stores nothing — the message log after
the call equals the message log before it. -/
theorem sendMessage_empty_trim (log : MessageLog) (newId : String) (now : Nat)
    (senderId text : String) (h : jsTrim text = "") :
    sendMessage log newId now senderId text = Except.error ChatError.EmptyMessage ∧
      logAfterSend log newId now senderId text = log := by
  constructor
  · simp [sendMessage, h]
  · simp [logAfterSend, sendMessage, h]

theorem sendMessage_empty_trim_check :
    jsTrim "  " = "" ∧
      sendMessage [] "m1" 5 "alice" "  " = Except.error ChatError.EmptyMessage ∧
      logAfterSend [] "m1" 5 "alice" "  " = [] := by
  refine ⟨by decide, ?_⟩
  have h := sendMessage_empty_trim [] "m1" 5 "alice" "  " (by decide)
  exact h

/-- Modelled from the spec: the comparison applied by the Firestore query
engine, which is not part of the repository.  `getMessagesRealtime`
(src/src/services/firebase.js) issues
`query(messagesCollectionRef, orderBy(timestamp, asc))`; per the spec the
delivered sequence is ordered by the `(createdAt, id)` pair ascending,
the document id breaking timestamp ties. -/
def firestoreLe (a b : Message) : Bool :=
  decide (a.timestamp < b.timestamp ∨
    (a.timestamp = b.timestamp ∧ a.id ≤ b.id))

/-- The snapshot delivered to the callback of `getMessagesRealtime`
(src/src/services/firebase.js) and to the live listener of the `App`
component (src/unnamed/part_000): every document of the `messages`
collection, arranged by the query order `firestoreLe`. -/
def getMessagesSnapshot (log : MessageLog) : List Message :=
  List.mergeSort log firestoreLe

/-- Strict precedence on messages: earlier timestamp, or equal timestamp
and strictly smaller document id. -/
def msgBefore (a b : Message) : Prop :=
  a.timestamp < b.timestamp ∨ (a.timestamp = b.timestamp ∧ a.id < b.id)

instance msgBefore_decidable : DecidableRel msgBefore := by
  intro a b
  unfold msgBefore
  infer_instance

theorem firestoreLe_trans (a b c : Message)
    (hab : firestoreLe a b) (hbc : firestoreLe b c) : firestoreLe a c := by
  simp only [firestoreLe, decide_eq_true_eq] at *
  rcases hab with h1 | ⟨h1, h2⟩ <;> rcases hbc with h3 | ⟨h3, h4⟩
  · exact Or.inl (lt_trans h1 h3)
  · exact Or.inl (h3 ▸ h1)
  · exact Or.inl (h1 ▸ h3)
  · exact Or.inr ⟨h1.trans h3, le_trans h2 h4⟩

theorem firestoreLe_total (a b : Message) :
    firestoreLe a b || firestoreLe b a := by
  simp only [firestoreLe, Bool.or_eq_true, decide_eq_true_eq]
  rcases Nat.lt_trichotomy a.timestamp b.timestamp with h | h | h
  · exact Or.inl (Or.inl h)
  · rcases le_total a.id b.id with h2 | h2
    · exact Or.inl (Or.inr ⟨h, h2⟩)
    · exact Or.inr (Or.inr ⟨h.symm, h2⟩)
  · exact Or.inr (Or.inl h)

/-- C1: every snapshot delivered by the realtime listener is strictly
ordered by the pair `(createdAt timestamp, document id)` ascending, the id
breaking timestamp ties, provided the document ids of the collection are
distinct (Firestore assigns unique ids within a collection).  Delivery
order and read order coincide: both are `getMessagesSnapshot`. -/
theorem getMessagesRealtime_sorted (log : MessageLog)
    (h : (log.map Message.id).Nodup) :
    (getMessagesSnapshot log).Pairwise msgBefore := by
  have hs : (getMessagesSnapshot log).Pairwise (fun a b => firestoreLe a b = true) :=
    List.sorted_mergeSort firestoreLe_trans firestoreLe_total log
  have hperm : List.Perm (getMessagesSnapshot log) log :=
    List.mergeSort_perm log firestoreLe
  have hnd : ((getMessagesSnapshot log).map Message.id).Nodup :=
    ((hperm.map Message.id).nodup_iff).mpr h
  have hne : (getMessagesSnapshot log).Pairwise (fun a b => a.id ≠ b.id) :=
    List.pairwise_map.mp hnd
  refine (hs.and hne).imp ?_
  rintro a b ⟨hle, hneq⟩
  simp only [firestoreLe, decide_eq_true_eq] at hle
  rcases hle with h1 | ⟨h1, h2⟩
  · exact Or.inl h1
  · exact Or.inr ⟨h1, lt_of_le_of_ne h2 hneq⟩

/-- Witness for C1 at a concrete collection with a timestamp tie. -/
theorem getMessagesRealtime_sorted_check :
    (([⟨"b", "u", "hi", 5⟩, ⟨"a", "v", "yo", 5⟩,
        ⟨"c", "w", "ok", 3⟩] : MessageLog).map Message.id).Nodup ∧
      (getMessagesSnapshot
        [⟨"b", "u", "hi", 5⟩, ⟨"a", "v", "yo", 5⟩,
          ⟨"c", "w", "ok", 3⟩]).Pairwise msgBefore :=
  ⟨by decide, getMessagesRealtime_sorted _ (by decide)⟩

/-- A user profile document of the `users` collection, as read and written
by userService.js (src/unnamed/part_005) and ProfileScreen.js: optional
`displayName` and `avatarUri` fields (`none` when the field is absent). -/
structure Profile where
  displayName : Option String
  avatarUri : Option String
deriving Repr, DecidableEq

/-- The `data` object passed to `updateUserProfile`: the fields supplied by
the call (`none` when a field is not supplied). -/
structure ProfileFields where
  displayName : Option String
  avatarUri : Option String
deriving Repr, DecidableEq

/-- The `users` collection: association of user ids to profile documents,
in document order. -/
abbrev Users := List (String × Profile)

/-- Looking a user's document up by its id. -/
def lookupProfile : Users → String → Option Profile
  | [], _ => none
  | (v, p) :: rest, u => if v = u then some p else lookupProfile rest u

/-- Field-wise merge of one document with the supplied fields, embedding
the Firestore `setDoc(ref, data, merge true)` write used by
`updateUserProfile` (src/unnamed/part_005): a supplied field replaces the
stored one, a field that is not supplied keeps its stored value. -/
def mergeProfile (old : Profile) (d : ProfileFields) : Profile :=
  { displayName :=
      match d.displayName with
      | some v => some v
      | none => old.displayName,
    avatarUri :=
      match d.avatarUri with
      | some v => some v
      | none => old.avatarUri }

/-- The document created by a merge write when no document exists: exactly
the supplied fields. -/
def profileOfFields (d : ProfileFields) : Profile :=
  { displayName := d.displayName, avatarUri := d.avatarUri }

/-- Effect of `setDoc(ref, data, merge true)` on the `users` collection:
merge into the existing document, or create it when absent. -/
def setDocMerge : Users → String → ProfileFields → Users
  | [], u, d => [(u, profileOfFields d)]
  | (v, p) :: rest, u, d =>
    if v = u then (v, mergeProfile p d) :: rest
    else (v, p) :: setDocMerge rest u d

/-- Embedding of `updateUserProfile(userId, data)` (src/unnamed/part_005):
throws when `userId` is falsy, otherwise performs the merge write. -/
def updateUserProfile (users : Users) (userId : String) (d : ProfileFields) :
    Except ChatError Users :=
  if userId = "" then Except.error ChatError.InvalidInput
  else Except.ok (setDocMerge users userId d)

/-- Modelled from the spec: the caller check on profile writes.  The
repository's `updateUserProfile` (src/unnamed/part_005) takes no caller;
per-document authorization lives in Firebase security rules, which are not
in the repository.  Per the spec, `updateProfile` fails with
`NotAuthorized` when the caller is not the subject user, before any
write. -/
def updateProfileAuthorized (caller : String) (users : Users)
    (userId : String) (d : ProfileFields) : Except ChatError Users :=
  if caller ≠ userId then Except.error ChatError.NotAuthorized
  else updateUserProfile users userId d

/-- The `users` collection after an authorized profile update: changed only
when the call succeeded. -/
def usersAfterProfileUpdate (caller : String) (users : Users)
    (userId : String) (d : ProfileFields) : Users :=
  match updateProfileAuthorized caller users userId d with
  | Except.ok users2 => users2
  | Except.error _ => users

theorem lookup_setDocMerge_self : ∀ (users : Users) (u : String) (d : ProfileFields),
    lookupProfile (setDocMerge users u d) u =
      match lookupProfile users u with
      | some p => some (mergeProfile p d)
      | none => some (profileOfFields d)
  | [], u, d => by simp [setDocMerge, lookupProfile]
  | (v, p) :: rest, u, d => by
    by_cases h : v = u
    · subst h
      simp [setDocMerge, lookupProfile]
    · simp [setDocMerge, lookupProfile, h, lookup_setDocMerge_self rest u d]

theorem lookup_setDocMerge_other : ∀ (users : Users) (u w : String)
    (d : ProfileFields), w ≠ u →
    lookupProfile (setDocMerge users u d) w = lookupProfile users w
  | [], u, w, d, hw => by simp [setDocMerge, lookupProfile, Ne.symm hw]
  | (v, p) :: rest, u, w, d, hw => by
    by_cases h : v = u
    · subst h
      simp [setDocMerge, lookupProfile, Ne.symm hw]
    · simp [setDocMerge, lookupProfile, h, lookup_setDocMerge_other rest u w d hw]

/-- C3: an `updateProfile` call whose caller is not the subject user fails
with `NotAuthorized` and leaves the whole `users` collection — in
particular the subject's document — exactly as it was. -/
theorem updateProfile_not_authorized (caller userId : String) (users : Users)
    (d : ProfileFields) (h : caller ≠ userId) :
    updateProfileAuthorized caller users userId d =
        Except.error ChatError.NotAuthorized ∧
      usersAfterProfileUpdate caller users userId d = users ∧
      lookupProfile (usersAfterProfileUpdate caller users userId d) userId =
        lookupProfile users userId := by
  refine ⟨?_, ?_, ?_⟩ <;>
    simp [updateProfileAuthorized, usersAfterProfileUpdate, h]

/-- Witness for C3 at a concrete collection. -/
theorem updateProfile_not_authorized_check :
    updateProfileAuthorized "mallory" [("u1", ⟨some "Al", none⟩)] "u1"
        ⟨some "Hacked", none⟩ = Except.error ChatError.NotAuthorized ∧
      usersAfterProfileUpdate "mallory" [("u1", ⟨some "Al", none⟩)] "u1"
          ⟨some "Hacked", none⟩ = [("u1", ⟨some "Al", none⟩)] ∧
      lookupProfile
          (usersAfterProfileUpdate "mallory" [("u1", ⟨some "Al", none⟩)] "u1"
            ⟨some "Hacked", none⟩) "u1" =
        lookupProfile [("u1", ⟨some "Al", none⟩)] "u1" :=
  updateProfile_not_authorized "mallory" "u1" [("u1", ⟨some "Al", none⟩)]
    ⟨some "Hacked", none⟩ (by decide)

/-- C4: `updateUserProfile` is a partial upsert.  On an existing document
the result is the field-wise merge: a field that is not supplied keeps its
stored value and a supplied field takes the supplied value; when no
document exists, one is created holding exactly the supplied fields.
Documents of other users are untouched. -/
theorem updateUserProfile_upsert (users : Users) (u : String)
    (d : ProfileFields) (hu : u ≠ "") :
    ∃ users2, updateUserProfile users u d = Except.ok users2 ∧
      (∀ p, lookupProfile users u = some p →
          lookupProfile users2 u = some (mergeProfile p d)) ∧
      (lookupProfile users u = none →
          lookupProfile users2 u = some (profileOfFields d)) ∧
      (∀ w, w ≠ u → lookupProfile users2 w = lookupProfile users w) ∧
      (∀ p, d.displayName = none →
          (mergeProfile p d).displayName = p.displayName) ∧
      (∀ p, d.avatarUri = none → (mergeProfile p d).avatarUri = p.avatarUri) ∧
      (∀ p v, d.displayName = some v →
          (mergeProfile p d).displayName = some v) ∧
      (∀ p v, d.avatarUri = some v → (mergeProfile p d).avatarUri = some v) := by
  refine ⟨setDocMerge users u d, by simp [updateUserProfile, hu], ?_, ?_, ?_, ?_, ?_, ?_, ?_⟩
  · intro p hp
    have h := lookup_setDocMerge_self users u d
    rw [hp] at h
    exact h
  · intro hp
    have h := lookup_setDocMerge_self users u d
    rw [hp] at h
    exact h
  · intro w hw
    exact lookup_setDocMerge_other users u w d hw
  · intro p hd
    simp [mergeProfile, hd]
  · intro p hd
    simp [mergeProfile, hd]
  · intro p v hd
    simp [mergeProfile, hd]
  · intro p v hd
    simp [mergeProfile, hd]

/-- Witness for C4 at a concrete collection: merging a display-name-only
update into an existing document keeps the stored avatar. -/
theorem updateUserProfile_upsert_check :
    ∃ users2,
      updateUserProfile [("u1", ⟨some "Al", some "pic"⟩)] "u1"
          ⟨some "Alice", none⟩ = Except.ok users2 ∧
        (∀ p, lookupProfile [("u1", ⟨some "Al", some "pic"⟩)] "u1" = some p →
            lookupProfile users2 "u1" = some (mergeProfile p ⟨some "Alice", none⟩)) ∧
        (lookupProfile [("u1", ⟨some "Al", some "pic"⟩)] "u1" = none →
            lookupProfile users2 "u1" = some (profileOfFields ⟨some "Alice", none⟩)) ∧
        (∀ w, w ≠ "u1" → lookupProfile users2 w =
            lookupProfile [("u1", ⟨some "Al", some "pic"⟩)] w) ∧
        (∀ p, (⟨some "Alice", none⟩ : ProfileFields).displayName = none →
            (mergeProfile p ⟨some "Alice", none⟩).displayName = p.displayName) ∧
        (∀ p, (⟨some "Alice", none⟩ : ProfileFields).avatarUri = none →
            (mergeProfile p ⟨some "Alice", none⟩).avatarUri = p.avatarUri) ∧
        (∀ p v, (⟨some "Alice", none⟩ : ProfileFields).displayName = some v →
            (mergeProfile p ⟨some "Alice", none⟩).displayName = some v) ∧
        (∀ p v, (⟨some "Alice", none⟩ : ProfileFields).avatarUri = some v →
            (mergeProfile p ⟨some "Alice", none⟩).avatarUri = some v) :=
  updateUserProfile_upsert [("u1", ⟨some "Al", some "pic"⟩)] "u1"
    ⟨some "Alice", none⟩ (by decide)

/-- Embedding of the JavaScript string fallback `x || d`: the default when
the field is absent or the empty string. -/
def jsOr (v : Option String) (d : String) : String :=
  match v with
  | some s => if s = "" then d else s
  | none => d

/-- Embedding of the JavaScript fallback `x || null` on an optional string
field. -/
def jsOrNull (v : Option String) : Option String :=
  match v with
  | some s => if s = "" then none else some s
  | none => none

/-- The display name shown by the ProfileScreen after `fetchUserProfile`
(src/src/screens/ProfileScreen.js): when the user's document exists the
screen sets the field to `userData.displayName` with an empty-string
fallback; when the document is absent it initializes the field with the
user's id. -/
def profileScreenDisplayName (users : Users) (userId : String) : String :=
  match lookupProfile users userId with
  | some p => jsOr p.displayName ""
  | none => userId

/-- A contact entry produced by the ContactsScreen users listener. -/
structure Contact where
  id : String
  displayName : String
  avatarUri : Option String
deriving Repr, DecidableEq

/-- Embedding of the ContactsScreen users listener
(src/src/screens/ContactsScreen.js): maps every document of the `users`
collection to a contact — the display name falling back to the document id,
the avatar to null — and filters the current user out. -/
def contactsListener (users : Users) (userId : String) : List Contact :=
  (users.map (fun up =>
      { id := up.1, displayName := jsOr up.2.displayName up.1,
        avatarUri := jsOrNull up.2.avatarUri })).filter
    (fun c => c.id != userId)

/-- C8 counterexample: a user whose document exists with `displayName`
unset.  The ProfileScreen fetch yields the empty string for that user, not
the user's id as the claim states. -/
theorem profileScreen_displayName_not_id :
    profileScreenDisplayName [("u1", ⟨none, some "pic"⟩)] "u1" = "" ∧
      profileScreenDisplayName [("u1", ⟨none, some "pic"⟩)] "u1" ≠ "u1" := by
  constructor
  · rfl
  · decide

/-- C8 (amended): the ProfileScreen fetch yields the user's id when the
document is absent, but the empty string when the document exists with
`displayName` unset; the contact listing yields the document id as display
name whenever `displayName` is unset. -/
theorem displayName_defaults (users : Users) (u viewer : String) (p : Profile) :
    (lookupProfile users u = none → profileScreenDisplayName users u = u) ∧
      (lookupProfile users u = some p → p.displayName = none →
        profileScreenDisplayName users u = "") ∧
      (∀ pid pr, (pid, pr) ∈ users → pid ≠ viewer → pr.displayName = none →
        (⟨pid, pid, jsOrNull pr.avatarUri⟩ : Contact) ∈
          contactsListener users viewer) := by
  refine ⟨?_, ?_, ?_⟩
  · intro h
    simp [profileScreenDisplayName, h]
  · intro h hd
    simp [profileScreenDisplayName, h, hd, jsOr]
  · intro pid pr hmem hne hd
    have hmap :
        (⟨pid, pid, jsOrNull pr.avatarUri⟩ : Contact) ∈
          users.map (fun up =>
            ({ id := up.1, displayName := jsOr up.2.displayName up.1,
               avatarUri := jsOrNull up.2.avatarUri } : Contact)) := by
      refine List.mem_map.mpr ⟨(pid, pr), hmem, ?_⟩
      simp [hd, jsOr]
    exact List.mem_filter.mpr ⟨hmap, by simp [hne]⟩

/-- Witness for C8 (amended) at a concrete collection. -/
theorem displayName_defaults_check :
    profileScreenDisplayName [("u1", ⟨none, none⟩)] "u2" = "u2" ∧
      profileScreenDisplayName [("u1", ⟨none, none⟩)] "u1" = "" ∧
      (⟨"u1", "u1", none⟩ : Contact) ∈
        contactsListener [("u1", ⟨none, none⟩)] "u2" := by
  refine ⟨?_, ?_, ?_⟩
  · exact (displayName_defaults [("u1", ⟨none, none⟩)] "u2" "u2"
      ⟨none, none⟩).1 (by decide)
  · exact (displayName_defaults [("u1", ⟨none, none⟩)] "u1" "u2"
      ⟨none, none⟩).2.1 (by decide) rfl
  · exact (displayName_defaults [("u1", ⟨none, none⟩)] "u1" "u2"
      ⟨none, none⟩).2.2 "u1" ⟨none, none⟩ (by decide) (by decide) rfl

/-- C9: no contact produced by the ContactsScreen users listener carries
the current authenticated user's id — the caller's own document is always
filtered out. -/
theorem contactsListener_excludes_self (users : Users) (userId : String) :
    ∀ c ∈ contactsListener users userId, c.id ≠ userId := by
  intro c hc
  have h := List.of_mem_filter hc
  simpa using h

/-- Witness for C9 at a concrete collection. -/
theorem contactsListener_excludes_self_check :
    (⟨"u2", "u2", none⟩ : Contact) ∈
        contactsListener [("u1", ⟨some "Al", none⟩), ("u2", ⟨none, none⟩)] "u1" ∧
      (⟨"u2", "u2", none⟩ : Contact).id ≠ "u1" := by
  refine ⟨by decide, ?_⟩
  exact contactsListener_excludes_self
    [("u1", ⟨some "Al", none⟩), ("u2", ⟨none, none⟩)] "u1"
    ⟨"u2", "u2", none⟩ (by decide)

/-- Modelled from the spec: sender-only deletion.  The repository's
`deleteMessage` (src/src/services/firebase.js) receives only the message
id and calls `deleteDoc`; its own doc comment defers authorization to
Firebase security rules, which are not in the repository.  Per the spec,
`delete(conversationId, messageId, requesterId)` returns `NotFound` when
the message is absent and `NotAuthorized` unless the requester is the
original sender; only an authorized call removes the document. -/
def deleteMessage (log : MessageLog) (messageId requesterId : String) :
    Except ChatError MessageLog :=
  match log.find? (fun m => m.id == messageId) with
  | none => Except.error ChatError.NotFound
  | some m =>
    if m.senderId = requesterId then
      Except.ok (log.filter (fun x => x.id != messageId))
    else Except.error ChatError.NotAuthorized

/-- The message log after a `deleteMessage` call: changed only when the
call succeeded. -/
def logAfterDelete (log : MessageLog) (messageId requesterId : String) :
    MessageLog :=
  match deleteMessage log messageId requesterId with
  | Except.ok log2 => log2
  | Except.error _ => log

theorem find_message_by_id : ∀ (log : MessageLog) (m : Message) (mid : String),
    (log.map Message.id).Nodup → m ∈ log → m.id = mid →
    log.find? (fun x => x.id == mid) = some m
  | [], m, _, _, hm, _ => absurd hm (List.not_mem_nil m)
  | a :: rest, m, mid, hnd, hm, hid => by
    rcases List.mem_cons.mp hm with rfl | hm2
    · simp [List.find?, hid]
    · have hand : a.id ∉ rest.map Message.id := (List.nodup_cons.mp hnd).1
      have hane : (a.id == mid) = false := by
        simp only [beq_eq_false_iff_ne, ne_eq]
        intro he
        exact hand (he ▸ hid ▸ List.mem_map_of_mem Message.id hm2)
      rw [List.find?, hane]
      exact find_message_by_id rest m mid (List.nodup_cons.mp hnd).2 hm2 hid

/-- C5: deletion succeeds only for the original sender.  When no stored
message carries the id, the call returns `NotFound`; when the requester is
not the sender of the addressed message, the call returns `NotAuthorized`
and the message stays in the log; any successful call was made by the
sender. -/
theorem deleteMessage_authorization (log : MessageLog) (mid r : String)
    (hids : (log.map Message.id).Nodup) :
    ((∀ m ∈ log, m.id ≠ mid) →
        deleteMessage log mid r = Except.error ChatError.NotFound) ∧
      (∀ m ∈ log, m.id = mid → m.senderId ≠ r →
        deleteMessage log mid r = Except.error ChatError.NotAuthorized ∧
          logAfterDelete log mid r = log) ∧
      (∀ log2, deleteMessage log mid r = Except.ok log2 →
        ∃ m ∈ log, m.id = mid ∧ m.senderId = r) := by
  refine ⟨?_, ?_, ?_⟩
  · intro habs
    have hfind : log.find? (fun x => x.id == mid) = none := by
      rw [List.find?_eq_none]
      intro x hx
      simpa using habs x hx
    simp [deleteMessage, hfind]
  · intro m hm hid hsend
    have hfind := find_message_by_id log m mid hids hm hid
    constructor
    · simp [deleteMessage, hfind, hsend]
    · simp [logAfterDelete, deleteMessage, hfind, hsend]
  · intro log2 hok
    unfold deleteMessage at hok
    rcases hfind : log.find? (fun x => x.id == mid) with _ | m
    · rw [hfind] at hok
      exact absurd hok (by simp)
    · rw [hfind] at hok
      by_cases hsend : m.senderId = r
      · refine ⟨m, List.mem_of_find?_eq_some hfind, ?_, hsend⟩
        have := List.find?_some hfind
        simpa using this
      · simp [hsend] at hok

/-- Witness for C5 at a concrete log. -/
theorem deleteMessage_authorization_check :
    (([⟨"m1", "alice", "hi", 5⟩] : MessageLog).map Message.id).Nodup ∧
      deleteMessage [⟨"m1", "alice", "hi", 5⟩] "zz" "bob" =
        Except.error ChatError.NotFound ∧
      deleteMessage [⟨"m1", "alice", "hi", 5⟩] "m1" "bob" =
        Except.error ChatError.NotAuthorized ∧
      logAfterDelete [⟨"m1", "alice", "hi", 5⟩] "m1" "bob" =
        [⟨"m1", "alice", "hi", 5⟩] := by
  refine ⟨by decide, ?_, ?_, ?_⟩
  · exact (deleteMessage_authorization [⟨"m1", "alice", "hi", 5⟩] "zz" "bob"
      (by decide)).1 (by decide)
  · exact ((deleteMessage_authorization [⟨"m1", "alice", "hi", 5⟩] "m1" "bob"
      (by decide)).2.1 ⟨"m1", "alice", "hi", 5⟩ (by decide) rfl (by decide)).1
  · exact ((deleteMessage_authorization [⟨"m1", "alice", "hi", 5⟩] "m1" "bob"
      (by decide)).2.1 ⟨"m1", "alice", "hi", 5⟩ (by decide) rfl (by decide)).2

/-- The identity store.  Modelled from the spec: anonymous uid generation
happens inside Firebase Auth (`signInAnonymously`, called by
`signInAnonymouslyUser` in src/src/services/authService.js), not in the
repository; the helper `generateUniqueId` (src/src/utils/helpers.js)
likewise draws on clock and randomness.  Per the spec the identity store
issues a previously unseen userId on every anonymous call, modelled as a
fresh counter over the set of already issued ids. -/
structure IdentityStore where
  nextId : Nat
  issued : List Nat
deriving Repr, DecidableEq

/-- A well-formed identity store: every issued id lies below the
counter. -/
def IdentityStore.Wf (s : IdentityStore) : Prop :=
  ∀ i ∈ s.issued, i < s.nextId

instance identityStoreWf_decidable (s : IdentityStore) : Decidable s.Wf := by
  unfold IdentityStore.Wf
  infer_instance

/-- Modelled from the spec: one anonymous authentication call — issues the
fresh id and records it as issued. -/
def signInAnonymouslyUser (s : IdentityStore) : Nat × IdentityStore :=
  (s.nextId, { nextId := s.nextId + 1, issued := s.nextId :: s.issued })

/-- C6: from a well-formed store, an anonymous authentication call returns
a previously unseen userId, preserves well-formedness, and two successive
anonymous calls return distinct userIds. -/
theorem signInAnonymously_fresh (s : IdentityStore) (hw : s.Wf) :
    (signInAnonymouslyUser s).1 ∉ s.issued ∧
      ((signInAnonymouslyUser s).2).Wf ∧
      (signInAnonymouslyUser ((signInAnonymouslyUser s).2)).1 ≠
        (signInAnonymouslyUser s).1 := by
  refine ⟨?_, ?_, ?_⟩
  · intro hmem
    exact absurd (hw _ hmem) (lt_irrefl s.nextId)
  · intro i hi
    rcases List.mem_cons.mp hi with rfl | hi2
    · exact Nat.lt_succ_self _
    · exact Nat.lt_succ_of_lt (hw i hi2)
  · exact Nat.succ_ne_self s.nextId

/-- Witness for C6 from the empty store. -/
theorem signInAnonymously_fresh_check :
    (signInAnonymouslyUser ⟨0, []⟩).1 ∉ ([] : List Nat) ∧
      ((signInAnonymouslyUser ⟨0, []⟩).2).Wf ∧
      (signInAnonymouslyUser ((signInAnonymouslyUser ⟨0, []⟩).2)).1 ≠
        (signInAnonymouslyUser ⟨0, []⟩).1 :=
  signInAnonymously_fresh ⟨0, []⟩ (by decide)

/-- The mutable Firestore state the embedded operations touch: the
`messages` collection and the `users` collection. -/
structure AppState where
  log : MessageLog
  users : Users
deriving Repr, DecidableEq

/-- The write operations of the system: sending a message
(src/src/services/firebase.js and the `handleSendMessage` handlers),
deleting a message, and updating a profile.  No operation edits a stored
message. -/
inductive Op where
  | send (newId : String) (now : Nat) (senderId text : String)
  | delete (messageId requesterId : String)
  | updateProfile (caller userId : String) (fields : ProfileFields)
deriving Repr, DecidableEq

/-- One step of the system: the state after the operation, unchanged when
the operation failed. -/
def step (s : AppState) (op : Op) : AppState :=
  match op with
  | Op.send newId now senderId text =>
    { s with log := logAfterSend s.log newId now senderId text }
  | Op.delete mid r =>
    { s with log := logAfterDelete s.log mid r }
  | Op.updateProfile caller u d =>
    { s with users := usersAfterProfileUpdate caller s.users u d }

theorem sendMessage_ok_shape (log : MessageLog) (newId : String) (now : Nat)
    (senderId text : String) (log2 : MessageLog) (msg : Message)
    (hok : sendMessage log newId now senderId text = Except.ok (log2, msg)) :
    msg.text = jsTrim text ∧ msg.text ≠ "" ∧ log2 = log ++ [msg] := by
  unfold sendMessage at hok
  by_cases hcond : senderId = "" ∨ jsTrim text = ""
  · rw [if_pos hcond] at hok
    exact absurd hok (by simp)
  · rw [if_neg hcond] at hok
    simp only [Except.ok.injEq, Prod.mk.injEq] at hok
    obtain ⟨hl, hmsg⟩ := hok
    subst hmsg
    refine ⟨rfl, ?_, hl.symm⟩
    intro he
    exact hcond (Or.inr he)

/-- C7: every message stored by a successful `sendMessage` carries the
trim of the input text, which is non-empty, and is appended after the
existing log; and no operation rewrites a stored message — every message
in a post-state log is either a message of the pre-state log, unchanged as
a whole record, or the message newly appended by a send, whose text is the
trimmed input. -/
theorem message_text_invariant (s : AppState) :
    (∀ (newId : String) (now : Nat) (senderId text : String)
        (log2 : MessageLog) (msg : Message),
        sendMessage s.log newId now senderId text = Except.ok (log2, msg) →
        msg.text = jsTrim text ∧ msg.text ≠ "" ∧ log2 = s.log ++ [msg]) ∧
      (∀ op : Op, ∀ m ∈ (step s op).log,
        m ∈ s.log ∨
          ∃ newId now senderId text,
            op = Op.send newId now senderId text ∧ m.text = jsTrim text) := by
  constructor
  · intro newId now senderId text log2 msg hok
    exact sendMessage_ok_shape s.log newId now senderId text log2 msg hok
  · intro op m hm
    cases op with
    | send newId now senderId text =>
      simp only [step, logAfterSend] at hm
      rcases hok : sendMessage s.log newId now senderId text with e | pair
      · rw [hok] at hm
        exact Or.inl hm
      · obtain ⟨log2, msg⟩ := pair
        rw [hok] at hm
        obtain ⟨htext, hne2, hlog⟩ :=
          sendMessage_ok_shape s.log newId now senderId text log2 msg hok
        rw [hlog] at hm
        rcases List.mem_append.mp hm with hm2 | hm2
        · exact Or.inl hm2
        · have hmm : m = msg := List.mem_singleton.mp hm2
          exact Or.inr ⟨newId, now, senderId, text, rfl, hmm ▸ htext⟩
    | delete mid r =>
      simp only [step, logAfterDelete] at hm
      rcases hdel : deleteMessage s.log mid r with e | log2
      · rw [hdel] at hm
        exact Or.inl hm
      · rw [hdel] at hm
        unfold deleteMessage at hdel
        rcases hfind : s.log.find? (fun x => x.id == mid) with _ | mm <;>
          rw [hfind] at hdel
        · exact absurd hdel (by simp)
        · by_cases hsend : mm.senderId = r
          · simp only [hsend, if_pos, Except.ok.injEq] at hdel
            rw [← hdel] at hm
            exact Or.inl (List.mem_of_mem_filter hm)
          · simp [hsend] at hdel
    | updateProfile caller u d =>
      exact Or.inl hm

/-- Witness for C7 at concrete inputs: a successful send of a padded text,
and a failed delete leaving a stored message in place. -/
theorem message_text_invariant_check :
    ((⟨"m1", "alice", "hi", 5⟩ : Message).text = jsTrim " hi " ∧
        (⟨"m1", "alice", "hi", 5⟩ : Message).text ≠ "" ∧
        ([⟨"m1", "alice", "hi", 5⟩] : MessageLog) =
          [] ++ [⟨"m1", "alice", "hi", 5⟩]) ∧
      ((⟨"m1", "alice", "hi", 5⟩ : Message) ∈
          (⟨[⟨"m1", "alice", "hi", 5⟩], []⟩ : AppState).log ∨
        ∃ newId now senderId text,
          Op.delete "m1" "bob" = Op.send newId now senderId text ∧
            (⟨"m1", "alice", "hi", 5⟩ : Message).text = jsTrim text) := by
  constructor
  · exact (message_text_invariant ⟨[], []⟩).1 "m1" 5 "alice" " hi "
      [⟨"m1", "alice", "hi", 5⟩] ⟨"m1", "alice", "hi", 5⟩ rfl
  · exact (message_text_invariant ⟨[⟨"m1", "alice", "hi", 5⟩], []⟩).2
      (Op.delete "m1" "bob") ⟨"m1", "alice", "hi", 5⟩ (by decide)

/-- The state of the useMessages hook that `handleSendMessage`
(src/src/hooks/useMessages.js) manipulates: the pending input text, the
error message, and the sending flag. -/
structure HookState where
  newMessage : String
  error : Option String
  sendingMessage : Bool
deriving Repr, DecidableEq

/-- Embedding of `handleSendMessage` of the useMessages hook
(src/src/hooks/useMessages.js).  The guard returns unchanged on empty
trimmed input or missing user; otherwise the handler clears the error,
awaits the service send — whose outcome is an input of the embedding —
and on success clears the input, while on a thrown error it keeps the
input and records the error message with the generic fallback. -/
def handleSendMessage (st : HookState) (currentUserId : String)
    (sendOutcome : Except String Unit) : HookState :=
  if jsTrim st.newMessage = "" ∨ currentUserId = "" then st
  else
    match sendOutcome with
    | Except.ok _ =>
      { st with newMessage := "", error := none, sendingMessage := false }
    | Except.error e =>
      { st with
          error := some (if e = "" then
            "Failed to send message. Please try again." else e),
          sendingMessage := false }

theorem jsTrim_empty : jsTrim "" = "" := rfl

/-- C10: once the guard passes (non-blank input, authenticated user), the
pending input is cleared exactly when the underlying send succeeds; when
the send throws, the input is left unchanged and an error message is
recorded. -/
theorem handleSendMessage_clear_iff (st : HookState) (uid : String)
    (outcome : Except String Unit)
    (hguard : jsTrim st.newMessage ≠ "" ∧ uid ≠ "") :
    ((handleSendMessage st uid outcome).newMessage = "" ↔
        ∃ u, outcome = Except.ok u) ∧
      (∀ e, outcome = Except.error e →
        (handleSendMessage st uid outcome).newMessage = st.newMessage ∧
          ∃ msg, (handleSendMessage st uid outcome).error = some msg) := by
  have hcond : ¬(jsTrim st.newMessage = "" ∨ uid = "") := by
    rintro (h | h)
    · exact hguard.1 h
    · exact hguard.2 h
  have hne : st.newMessage ≠ "" := by
    intro h
    exact hguard.1 (h ▸ jsTrim_empty)
  constructor
  · cases outcome with
    | ok u =>
      simp [handleSendMessage, hcond]
    | error e =>
      simp [handleSendMessage, hcond, hne]
  · intro e he
    subst he
    constructor
    · simp [handleSendMessage, hcond]
    · exact ⟨if e = "" then
        "Failed to send message. Please try again." else e, by
          simp [handleSendMessage, hcond]⟩

/-- Witness for C10 at concrete states: a successful send clears the
input; a thrown send keeps it and records an error. -/
theorem handleSendMessage_clear_iff_check :
    ((handleSendMessage ⟨"hi", none, true⟩ "u1"
          (Except.ok ())).newMessage = "" ↔
        ∃ u, (Except.ok () : Except String Unit) = Except.ok u) ∧
      ((handleSendMessage ⟨"hi", none, true⟩ "u1"
            (Except.error "boom")).newMessage = "hi" ∧
        ∃ msg, (handleSendMessage ⟨"hi", none, true⟩ "u1"
            (Except.error "boom")).error = some msg) := by
  constructor
  · exact (handleSendMessage_clear_iff ⟨"hi", none, true⟩ "u1"
      (Except.ok ()) ⟨by decide, by decide⟩).1
  · exact (handleSendMessage_clear_iff ⟨"hi", none, true⟩ "u1"
      (Except.error "boom") ⟨by decide, by decide⟩).2 "boom" rfl

end ChatApp
